import Mathlib

/-!
Shallow embedding of `src/msutimer.c` (POSIX build branch, the one selected on
Linux): a high-resolution timer plus three benchmark reducers (total, average,
median).  Doubles are idealized as rationals; the OS clock is modelled as a
stream of `gettimeofday` samples together with a stream of success flags; the
global `errno` and the position in the sample stream form an explicit machine
state threaded through every operation.  The caller-supplied callback is
modelled as a function from its invocation index (0-based) to the boolean it
returns; `NULL` pointers are `Option.none`.  The division performed by
`msutimer_bench_average` is represented with an `Option` result: `none` stands
for the IEEE NaN produced by `0.0 / 0`.  The buffer of recorded times in
`msutimer_bench_median` is a list of `Option ℚ` sized to the requested
iteration count, `none` marking bytes `malloc` returned but the loop never
initialized; a read outside the buffer or from an uninitialized slot yields
`none` (an unspecified value in C).
-/

namespace MSUT

/-- POSIX `struct timeval`: the pair `(tv_sec, tv_usec)`. -/
abbrev MSUTimerTime := ℤ × ℤ

/-- The `MSUTimer` struct of `msutimer.c`: clock frequency (unused on the
POSIX branch, zero-initialized by `calloc`), last stored sample `t1`, and the
last computed difference in microseconds. -/
structure Timer where
  freq : MSUTimerTime
  t1 : MSUTimerTime
  diffusecs : ℚ
deriving DecidableEq

/-- The OS clock: the `i`-th call of `gettimeofday` yields `sample i` and
reports success `ok i`. -/
structure Clock where
  sample : ℕ → MSUTimerTime
  ok : ℕ → Bool

/-- Ambient machine state: how many clock samples have been consumed so far,
and the current value of `errno`. -/
structure St where
  idx : ℕ
  errno : ℕ
deriving DecidableEq

/-- The POSIX value of the `EDOM` error code. -/
def EDOM : ℕ := 33

/-- The POSIX value of the `ERANGE` error code. -/
def ERANGE : ℕ := 34

/-- The C constant `DBL_MAX`, exactly `(2 - 2 ^ -52) * 2 ^ 1023`. -/
def DBL_MAX : ℚ := 2 ^ 1024 - 2 ^ 971

/-- Result of `get_msuttime_`: the success flag returned by the OS primitive,
the raw sample written through the out-pointer, and the advanced state. -/
structure SampleOut where
  success : Bool
  t : MSUTimerTime
  st : St
deriving DecidableEq

/-- Embeds `get_msuttime_` (POSIX branch): one `gettimeofday` call, consuming
the next sample of the clock stream. -/
def get_msuttime_ (c : Clock) (st : St) : SampleOut :=
  { success := c.ok st.idx, t := c.sample st.idx, st := { st with idx := st.idx + 1 } }

/-- Embeds `msuttime_to_usecs_` (POSIX branch):
`t->tv_sec * 1000000.0 + t->tv_usec`; the `freq` argument is ignored. -/
def msuttime_to_usecs_ (t : MSUTimerTime) (_freq : MSUTimerTime) : ℚ :=
  (t.1 : ℚ) * 1000000 + (t.2 : ℚ)

/-- Embeds `update_diffusecs_` (POSIX branch): stores into `diffusecs` the
inline expression `(t2.tv_sec * 1e6 + t2.tv_usec) - (t1.tv_sec * 1e6 + t1.tv_usec)`. -/
def update_diffusecs_ (timer : Timer) (t2 : MSUTimerTime) : Timer :=
  { timer with diffusecs :=
      ((t2.1 : ℚ) * 1000000 + (t2.2 : ℚ)) - ((timer.t1.1 : ℚ) * 1000000 + (timer.t1.2 : ℚ)) }

/-- Embeds `msutimer_new`: zeroed struct, one clock read stored into `t1`;
on clock failure the timer is freed and `errno` is set to `ERANGE`.  (The
`calloc` failure path is outside this model.) -/
def msutimer_new (c : Clock) (st : St) : Option Timer × St :=
  let st := { st with errno := 0 }
  let s := get_msuttime_ c st
  if s.success then
    (some { freq := (0, 0), t1 := s.t, diffusecs := 0 }, s.st)
  else
    (none, { s.st with errno := ERANGE })

/-- Result of `msutimer_gettime`: the returned double, the timer after the
call (`none` when the argument was `NULL`), and the machine state. -/
structure GetOut where
  ret : ℚ
  timer : Option Timer
  st : St
deriving DecidableEq

/-- Embeds `msutimer_gettime`: resets `errno`; on `NULL` timer sets `EDOM`
and returns `-DBL_MAX`; otherwise takes a sample (discarding the success flag
returned by `get_msuttime_`), updates `diffusecs`, stores the new sample into
`t1` and returns its absolute microsecond value. -/
def msutimer_gettime (c : Clock) (timer : Option Timer) (st : St) : GetOut :=
  let st := { st with errno := 0 }
  match timer with
  | none => { ret := -DBL_MAX, timer := none, st := { st with errno := EDOM } }
  | some tm =>
    let s := get_msuttime_ c st
    let tm := update_diffusecs_ tm s.t
    let tm := { tm with t1 := s.t }
    { ret := msuttime_to_usecs_ tm.t1 tm.freq, timer := some tm, st := s.st }

/-- Result of the pure accessors `msutimer_diff_usecs` / `_msecs` / `_secs`. -/
structure DiffOut where
  ret : ℚ
  st : St
deriving DecidableEq

/-- Embeds `msutimer_diff_usecs`. -/
def msutimer_diff_usecs (timer : Option Timer) (st : St) : DiffOut :=
  let st := { st with errno := 0 }
  match timer with
  | none => { ret := -DBL_MAX, st := { st with errno := EDOM } }
  | some tm => { ret := tm.diffusecs, st := st }

/-- Embeds `msutimer_diff_msecs`: returns `0.001 * diffusecs`. -/
def msutimer_diff_msecs (timer : Option Timer) (st : St) : DiffOut :=
  let st := { st with errno := 0 }
  match timer with
  | none => { ret := -DBL_MAX, st := { st with errno := EDOM } }
  | some tm => { ret := (0.001 : ℚ) * tm.diffusecs, st := st }

/-- Embeds `msutimer_diff_secs`: returns `0.000001 * diffusecs`. -/
def msutimer_diff_secs (timer : Option Timer) (st : St) : DiffOut :=
  let st := { st with errno := 0 }
  match timer with
  | none => { ret := -DBL_MAX, st := { st with errno := EDOM } }
  | some tm => { ret := (0.000001 : ℚ) * tm.diffusecs, st := st }

/-- Result of `msutimer_accuracy_usecs`: `ret = none` means the busy-spin did
not terminate within the supplied fuel. -/
structure AccOut where
  ret : Option ℚ
  timer : Option Timer
  st : St
deriving DecidableEq

/-- The busy-spin of `msutimer_accuracy_usecs`:
`for (;;) if ((t2 = msutimer_gettime(timer)) > t1) break; return t2 - t1;`,
with explicit fuel bounding the number of loop iterations modelled. -/
def accLoop (c : Clock) (t1 : ℚ) : Option Timer → St → ℕ → AccOut
  | tm, st, 0 => { ret := none, timer := tm, st := st }
  | tm, st, fuel + 1 =>
    let g := msutimer_gettime c tm st
    if t1 < g.ret then { ret := some (g.ret - t1), timer := g.timer, st := g.st }
    else accLoop c t1 g.timer g.st fuel

/-- Embeds `msutimer_accuracy_usecs`: resets `errno`; on `NULL` timer returns
`-DBL_MAX` *without* setting `errno` (faithful to the source, whose `NULL`
branch, unlike every other function, omits the `errno = EDOM` assignment);
otherwise samples once and busy-spins until a strictly larger absolute time
appears, returning the difference. -/
def msutimer_accuracy_usecs (c : Clock) (st : St) (timer : Option Timer) (fuel : ℕ) : AccOut :=
  let st := { st with errno := 0 }
  match timer with
  | none => { ret := some (-DBL_MAX), timer := none, st := st }
  | some tm =>
    let g := msutimer_gettime c (some tm) st
    accLoop c g.ret g.timer g.st fuel

/-- Absolute microsecond value of the `j`-th clock sample (the value
`msutimer_gettime` returns when it consumes sample `j`; on the POSIX branch
the frequency argument of `msuttime_to_usecs_` is ignored). -/
def usecsAt (c : Clock) (j : ℕ) : ℚ := msuttime_to_usecs_ (c.sample j) (0, 0)

/-- Mutable locals of the `msutimer_bench` loop: the `erepeat` slot (`none`
models a `NULL` out-pointer), the sign `bias`, and the number of callback
invocations performed. -/
structure BLoopSt where
  erepeat : Option ℕ
  bias : ℚ
  calls : ℕ
deriving DecidableEq

/-- The `for` loop of `msutimer_bench`: runs the callback on indices
`i, i+1, ...` while `rem` iterations remain; on the first `false` stores the
failing index into the `erepeat` slot (when present), flips `bias` to `-1`
and breaks. -/
def benchLoop (cb : ℕ → Bool) : ℕ → ℕ → BLoopSt → BLoopSt
  | _, 0, s => s
  | i, rem + 1, s =>
    if cb i then benchLoop cb (i + 1) rem { s with calls := s.calls + 1 }
    else { erepeat := s.erepeat.map fun _ => i, bias := -1, calls := s.calls + 1 }

/-- Result of `msutimer_bench`. -/
structure BenchOut where
  ret : ℚ
  timer : Option Timer
  st : St
  erepeat : Option ℕ
  calls : ℕ
deriving DecidableEq

/-- Embeds `msutimer_bench`: guards (`NULL` timer, `NULL` callback, zero
repeat count) return `0.0` with `errno = EDOM`; otherwise the `erepeat` slot
is reset to `0`, the whole run is timed as one interval around the loop, and
the result is `bias * (t2 - t)`. -/
def msutimer_bench (c : Clock) (st : St) (timer : Option Timer) (nrepeats : ℕ)
    (cb : Option (ℕ → Bool)) (erepeat : Option ℕ) : BenchOut :=
  let st := { st with errno := 0 }
  match timer with
  | none => { ret := 0, timer := none, st := { st with errno := EDOM }, erepeat := erepeat, calls := 0 }
  | some tm =>
    match cb with
    | none =>
      { ret := 0, timer := some tm, st := { st with errno := EDOM }, erepeat := erepeat, calls := 0 }
    | some f =>
      if nrepeats = 0 then
        { ret := 0, timer := some tm, st := { st with errno := EDOM }, erepeat := erepeat, calls := 0 }
      else
        let er0 := erepeat.map fun _ => 0
        let g1 := msutimer_gettime c (some tm) st
        let lp := benchLoop f 0 nrepeats { erepeat := er0, bias := 1, calls := 0 }
        let g2 := msutimer_gettime c g1.timer g1.st
        { ret := lp.bias * (g2.ret - g1.ret), timer := g2.timer, st := g2.st,
          erepeat := lp.erepeat, calls := lp.calls }

/-- Mutable locals of the `msutimer_bench_average` loop; `nrepeats` is the
(source-mutated) divisor, overwritten with the failing index on a callback
failure. -/
structure AvgSt where
  timer : Option Timer
  st : St
  erepeat : Option ℕ
  sum : ℚ
  bias : ℚ
  nrepeats : ℕ
  calls : ℕ
deriving DecidableEq

/-- The `for` loop of `msutimer_bench_average`: each iteration samples the
clock, runs the callback, samples again and accumulates the difference; on a
callback failure it stores the failing index into the `erepeat` slot, flips
`bias`, overwrites `nrepeats` with the failing index and breaks. -/
def avgLoop (c : Clock) (cb : ℕ → Bool) : ℕ → ℕ → AvgSt → AvgSt
  | _, 0, s => s
  | i, rem + 1, s =>
    let g1 := msutimer_gettime c s.timer s.st
    if cb i then
      let g2 := msutimer_gettime c g1.timer g1.st
      avgLoop c cb (i + 1) rem
        { s with timer := g2.timer, st := g2.st,
                 sum := s.sum + (g2.ret - g1.ret), calls := s.calls + 1 }
    else
      { s with timer := g1.timer, st := g1.st,
               erepeat := s.erepeat.map fun _ => i, bias := -1,
               nrepeats := i, calls := s.calls + 1 }

/-- Result of `msutimer_bench_average`: `ret = none` models the NaN produced
by the division `bias * sum / nrepeats` when the divisor is `0`; `nrepeats`
is the final value of the source's mutated repeat count. -/
structure AvgOut where
  ret : Option ℚ
  timer : Option Timer
  st : St
  erepeat : Option ℕ
  nrepeats : ℕ
  calls : ℕ
deriving DecidableEq

/-- Embeds `msutimer_bench_average`: guards as in `msutimer_bench`; then runs
the per-iteration timing loop and returns `bias * sum / nrepeats` with the
possibly reduced `nrepeats` as divisor (`none` when that divisor is `0`). -/
def msutimer_bench_average (c : Clock) (st : St) (timer : Option Timer) (nrepeats : ℕ)
    (cb : Option (ℕ → Bool)) (erepeat : Option ℕ) : AvgOut :=
  let st := { st with errno := 0 }
  match timer with
  | none =>
    { ret := some 0, timer := none, st := { st with errno := EDOM },
      erepeat := erepeat, nrepeats := nrepeats, calls := 0 }
  | some tm =>
    match cb with
    | none =>
      { ret := some 0, timer := some tm, st := { st with errno := EDOM },
        erepeat := erepeat, nrepeats := nrepeats, calls := 0 }
    | some f =>
      if nrepeats = 0 then
        { ret := some 0, timer := some tm, st := { st with errno := EDOM },
          erepeat := erepeat, nrepeats := nrepeats, calls := 0 }
      else
        let s := avgLoop c f 0 nrepeats
          { timer := some tm, st := st, erepeat := erepeat,
            sum := 0, bias := 1, nrepeats := nrepeats, calls := 0 }
        { ret := if s.nrepeats = 0 then none else some (s.bias * s.sum / (s.nrepeats : ℚ)),
          timer := s.timer, st := s.st, erepeat := s.erepeat,
          nrepeats := s.nrepeats, calls := s.calls }

/-- Mutable locals of the `msutimer_bench_median` loop; `rec` is the list of
recorded per-iteration times (`rectimes[0 .. cnt-1]`). -/
structure MedSt where
  timer : Option Timer
  st : St
  erepeat : Option ℕ
  rectimes : List ℚ
  bias : ℚ
  nrepeats : ℕ
  calls : ℕ
deriving DecidableEq

/-- The `for` loop of `msutimer_bench_median`: like the average loop but each
successful iteration appends its duration to the recorded list. -/
def medLoop (c : Clock) (cb : ℕ → Bool) : ℕ → ℕ → MedSt → MedSt
  | _, 0, s => s
  | i, rem + 1, s =>
    let g1 := msutimer_gettime c s.timer s.st
    if cb i then
      let g2 := msutimer_gettime c g1.timer g1.st
      medLoop c cb (i + 1) rem
        { s with timer := g2.timer, st := g2.st,
                 rectimes := s.rectimes ++ [g2.ret - g1.ret], calls := s.calls + 1 }
    else
      { s with timer := g1.timer, st := g1.st,
               erepeat := s.erepeat.map fun _ => i, bias := -1,
               nrepeats := i, calls := s.calls + 1 }

/-- Result of `msutimer_bench_median`: `ret = none` models a result read from
outside the allocated buffer or from a slot the loop never initialized;
`nrepeats` is the final (possibly reduced) count of recorded durations. -/
structure MedOut where
  ret : Option ℚ
  timer : Option Timer
  st : St
  erepeat : Option ℕ
  nrepeats : ℕ
  calls : ℕ
deriving DecidableEq

/-- Embeds `msutimer_bench_median`: guards as in `msutimer_bench`; then the
per-iteration loop records durations into a buffer of `nrepeats` slots, `qsort`
sorts the first `cnt` of them, and the result reads `rectimes[cnt/2]`, plus
`rectimes[1 + cnt/2]` when `cnt` is even, averaging the two.  Reads of
uninitialized slots (indices in `[cnt, n)`) or out of the buffer entirely
(indices `≥ n`) yield `none`.  (The `malloc` failure path is outside this
model.) -/
def msutimer_bench_median (c : Clock) (st : St) (timer : Option Timer) (nrepeats : ℕ)
    (cb : Option (ℕ → Bool)) (erepeat : Option ℕ) : MedOut :=
  let st := { st with errno := 0 }
  match timer with
  | none =>
    { ret := some 0, timer := none, st := { st with errno := EDOM },
      erepeat := erepeat, nrepeats := nrepeats, calls := 0 }
  | some tm =>
    match cb with
    | none =>
      { ret := some 0, timer := some tm, st := { st with errno := EDOM },
        erepeat := erepeat, nrepeats := nrepeats, calls := 0 }
    | some f =>
      if nrepeats = 0 then
        { ret := some 0, timer := some tm, st := { st with errno := EDOM },
          erepeat := erepeat, nrepeats := nrepeats, calls := 0 }
      else
        let s := medLoop c f 0 nrepeats
          { timer := some tm, st := st, erepeat := erepeat,
            rectimes := [], bias := 1, nrepeats := nrepeats, calls := 0 }
        let cnt := s.nrepeats
        let sortedBuf : List (Option ℚ) :=
          ((s.rectimes.insertionSort (· ≤ ·)).map some) ++ List.replicate (nrepeats - cnt) none
        let r0 := sortedBuf.getD (cnt / 2) none
        let r : Option ℚ :=
          if cnt % 2 = 0 then
            match r0, sortedBuf.getD (1 + cnt / 2) none with
            | some a, some b => some ((a + b) / 2)
            | _, _ => none
          else r0
        { ret := r.map fun x => s.bias * x, timer := s.timer, st := s.st,
          erepeat := s.erepeat, nrepeats := cnt, calls := s.calls }

/-- A demonstration clock whose `j`-th sample is `(0, j)` microseconds and
which always reports success. -/
def cdemo : Clock := { sample := fun j => (0, (j : ℤ)), ok := fun _ => true }

/-- A demonstration timer as produced by timer construction at sample `(0, 0)`. -/
def tm0 : Timer := { freq := (0, 0), t1 := (0, 0), diffusecs := 0 }

/-- The initial machine state: no samples consumed, `errno = 0`. -/
def st0 : St := { idx := 0, errno := 0 }

end MSUT

namespace MSUT

lemma gettime_ret_some (c : Clock) (tm : Timer) (st : St) :
    (msutimer_gettime c (some tm) st).ret = usecsAt c st.idx := rfl

lemma benchLoop_erepeat_of_true (cb : ℕ → Bool) (h : ∀ j, cb j = true) :
    ∀ rem i s, (benchLoop cb i rem s).erepeat = s.erepeat := by
  intro rem
  induction rem with
  | zero => intro i s; rfl
  | succ rem ih => intro i s; simp only [benchLoop, h i, if_true]; rw [ih]

lemma avgLoop_erepeat_of_true (c : Clock) (cb : ℕ → Bool) (h : ∀ j, cb j = true) :
    ∀ rem i s, (avgLoop c cb i rem s).erepeat = s.erepeat := by
  intro rem
  induction rem with
  | zero => intro i s; rfl
  | succ rem ih => intro i s; simp only [avgLoop, h i, if_true]; rw [ih]

lemma medLoop_erepeat_of_true (c : Clock) (cb : ℕ → Bool) (h : ∀ j, cb j = true) :
    ∀ rem i s, (medLoop c cb i rem s).erepeat = s.erepeat := by
  intro rem
  induction rem with
  | zero => intro i s; rfl
  | succ rem ih => intro i s; simp only [medLoop, h i, if_true]; rw [ih]

lemma accLoop_finds (c : Clock) (t1 : ℚ) :
    ∀ fuel (tm : Timer) (st : St), (∃ i, i < fuel ∧ t1 < usecsAt c (st.idx + i)) →
      ∃ j, (accLoop c t1 (some tm) st fuel).ret = some (usecsAt c j - t1) ∧ t1 < usecsAt c j := by
  intro fuel
  induction fuel with
  | zero =>
    intro tm st h
    obtain ⟨i, hi, _⟩ := h
    exact absurd hi (Nat.not_lt_zero i)
  | succ fuel ih =>
    intro tm st h
    have hbody : accLoop c t1 (some tm) st (fuel + 1)
        = (if t1 < usecsAt c st.idx
           then { ret := some (usecsAt c st.idx - t1),
                  timer := (msutimer_gettime c (some tm) st).timer,
                  st := (msutimer_gettime c (some tm) st).st }
           else accLoop c t1 (msutimer_gettime c (some tm) st).timer
                  (msutimer_gettime c (some tm) st).st fuel) := rfl
    by_cases hlt : t1 < usecsAt c st.idx
    · refine ⟨st.idx, ?_, hlt⟩
      rw [hbody, if_pos hlt]
    · obtain ⟨i, hi, hgt⟩ := h
      obtain ⟨tm2, htm⟩ : ∃ tm2, (msutimer_gettime c (some tm) st).timer = some tm2 := ⟨_, rfl⟩
      have hst : (msutimer_gettime c (some tm) st).st = { idx := st.idx + 1, errno := 0 } := rfl
      rw [hbody, if_neg hlt, htm, hst]
      match i, hi, hgt with
      | 0, _, hgt => exact absurd (by simpa using hgt) hlt
      | i + 1, hi, hgt =>
        exact ih tm2 { idx := st.idx + 1, errno := 0 }
          ⟨i, Nat.lt_of_succ_lt_succ hi, by simpa [Nat.add_assoc, Nat.add_comm 1 i] using hgt⟩

/-- C1: refuted as stated — on the failing input below (a callback failing on its
first invocation, `k = 1`), `msutimer_bench_average` stores `k - 1 = 0` into the
`erepeat` slot as the claim says, but its return value is the NaN arising from
`(-1 * 0.0) / 0` (the source sets `nrepeats = i = 0` before dividing), which is
not a strictly negative value. -/
theorem bench_average_fail_first_returns_nan :
    (msutimer_bench_average cdemo st0 (some tm0) 1 (some fun _ => false) (some 7)).ret = none ∧
    (msutimer_bench_average cdemo st0 (some tm0) 1 (some fun _ => false) (some 7)).erepeat
      = some 0 :=
  ⟨rfl, rfl⟩

/-- C2: refuted as stated — with `nrepeats = 2` and an always-succeeding
callback, the recorded-duration count is `2`, the even-count branch reads
`rectimes[cnt/2] = rectimes[1]` and `rectimes[1 + cnt/2] = rectimes[2]`, and
index `2` does not lie within the 2-element buffer allocated for the requested
`n = 2`; the result is therefore an unspecified value (`none` in this model),
not the average of two initialized elements. -/
theorem bench_median_even_count_reads_past_buffer :
    (msutimer_bench_median cdemo st0 (some tm0) 2 (some fun _ => true) none).ret = none ∧
    (msutimer_bench_median cdemo st0 (some tm0) 2 (some fun _ => true) none).nrepeats = 2 ∧
    ¬ (1 + (msutimer_bench_median cdemo st0 (some tm0) 2 (some fun _ => true) none).nrepeats / 2
        < 2) := by
  refine ⟨?_, rfl, ?_⟩
  · norm_num [msutimer_bench_median, medLoop, msutimer_gettime, get_msuttime_, update_diffusecs_,
      msuttime_to_usecs_, cdemo, st0, tm0, List.insertionSort, List.orderedInsert]
  · rw [show (msutimer_bench_median cdemo st0 (some tm0) 2 (some fun _ => true) none).nrepeats = 2
        from rfl]
    norm_num

/-- C3: refuted as stated — when the callback fails on its first invocation the
count of iterations actually executed is `0`, and `msutimer_bench_average`
divides by that zero count (`ret = none` models the resulting NaN), so the
division is not always well-defined. -/
theorem bench_average_fail_first_divides_by_zero :
    (msutimer_bench_average cdemo st0 (some tm0) 3 (some fun _ => false) none).nrepeats = 0 ∧
    (msutimer_bench_average cdemo st0 (some tm0) 3 (some fun _ => false) none).calls = 1 ∧
    (msutimer_bench_average cdemo st0 (some tm0) 3 (some fun _ => false) none).ret = none :=
  ⟨rfl, rfl, rfl⟩

/-- C4: with `n = 1` and an always-succeeding callback, the three reducers
return exactly the same duration: starting from the same machine state each
consumes the same two clock samples around the single callback invocation, and
the average (divided by 1) and the median (of the one-element recording) both
equal the total. -/
theorem bench_reducers_agree_at_one (c : Clock) (tm : Timer) (st : St) (cb : ℕ → Bool)
    (h : ∀ i, cb i = true) (er : Option ℕ) :
    (msutimer_bench_average c st (some tm) 1 (some cb) er).ret
      = some ((msutimer_bench c st (some tm) 1 (some cb) er).ret) ∧
    (msutimer_bench_median c st (some tm) 1 (some cb) er).ret
      = some ((msutimer_bench c st (some tm) 1 (some cb) er).ret) := by
  have h0 := h 0
  constructor <;>
    simp [msutimer_bench, msutimer_bench_average, msutimer_bench_median, benchLoop, avgLoop,
      medLoop, msutimer_gettime, get_msuttime_, update_diffusecs_, msuttime_to_usecs_, h0,
      List.insertionSort, List.orderedInsert]

/-- Witness for C4 at a concrete clock, timer, state and callback. -/
theorem bench_reducers_agree_at_one_witness :
    (msutimer_bench_average cdemo st0 (some tm0) 1 (some fun _ => true) none).ret
      = some ((msutimer_bench cdemo st0 (some tm0) 1 (some fun _ => true) none).ret) ∧
    (msutimer_bench_median cdemo st0 (some tm0) 1 (some fun _ => true) none).ret
      = some ((msutimer_bench cdemo st0 (some tm0) 1 (some fun _ => true) none).ret) :=
  bench_reducers_agree_at_one cdemo tm0 st0 (fun _ => true) (fun _ => rfl) none

/-- C5: refuted as stated — on a `NULL` timer the four functions
`msutimer_gettime`, `msutimer_diff_usecs`, `msutimer_diff_msecs` and
`msutimer_diff_secs` do return `-DBL_MAX` with `errno = EDOM`, but
`msutimer_accuracy_usecs` returns the `-DBL_MAX` sentinel while leaving
`errno = 0`: its `NULL` branch omits the `errno = EDOM` assignment its own
documentation promises, so no caller-inspectable error indicator
distinguishable from success is set. -/
theorem accuracy_null_leaves_errno_zero :
    (msutimer_gettime cdemo none st0).ret = -DBL_MAX ∧
    (msutimer_gettime cdemo none st0).st.errno = EDOM ∧
    (msutimer_diff_usecs none st0).ret = -DBL_MAX ∧
    (msutimer_diff_usecs none st0).st.errno = EDOM ∧
    (msutimer_diff_msecs none st0).ret = -DBL_MAX ∧
    (msutimer_diff_msecs none st0).st.errno = EDOM ∧
    (msutimer_diff_secs none st0).ret = -DBL_MAX ∧
    (msutimer_diff_secs none st0).st.errno = EDOM ∧
    (msutimer_accuracy_usecs cdemo st0 none 0).ret = some (-DBL_MAX) ∧
    (msutimer_accuracy_usecs cdemo st0 none 0).st.errno = 0 ∧
    EDOM ≠ 0 :=
  ⟨rfl, rfl, rfl, rfl, rfl, rfl, rfl, rfl, rfl, rfl, by decide⟩

/-- C6: each of the three reducers, when the timer is `NULL`, the callback is
`NULL`, or the repeat count is `0`, returns `0.0`, sets `errno = EDOM`, never
invokes the callback, consumes no clock sample, and leaves the timer and the
`erepeat` slot unchanged. -/
theorem reducers_reject_invalid_inputs (c : Clock) (st : St) (timer : Option Timer)
    (n : ℕ) (cb : Option (ℕ → Bool)) (er : Option ℕ)
    (h : timer = none ∨ cb = none ∨ n = 0) :
    ((msutimer_bench c st timer n cb er).ret = 0 ∧
     (msutimer_bench c st timer n cb er).st.errno = EDOM ∧
     (msutimer_bench c st timer n cb er).calls = 0 ∧
     (msutimer_bench c st timer n cb er).timer = timer ∧
     (msutimer_bench c st timer n cb er).erepeat = er ∧
     (msutimer_bench c st timer n cb er).st.idx = st.idx) ∧
    ((msutimer_bench_average c st timer n cb er).ret = some 0 ∧
     (msutimer_bench_average c st timer n cb er).st.errno = EDOM ∧
     (msutimer_bench_average c st timer n cb er).calls = 0 ∧
     (msutimer_bench_average c st timer n cb er).timer = timer ∧
     (msutimer_bench_average c st timer n cb er).erepeat = er ∧
     (msutimer_bench_average c st timer n cb er).st.idx = st.idx) ∧
    ((msutimer_bench_median c st timer n cb er).ret = some 0 ∧
     (msutimer_bench_median c st timer n cb er).st.errno = EDOM ∧
     (msutimer_bench_median c st timer n cb er).calls = 0 ∧
     (msutimer_bench_median c st timer n cb er).timer = timer ∧
     (msutimer_bench_median c st timer n cb er).erepeat = er ∧
     (msutimer_bench_median c st timer n cb er).st.idx = st.idx) := by
  rcases h with rfl | rfl | rfl
  · simp [msutimer_bench, msutimer_bench_average, msutimer_bench_median]
  · cases timer <;> simp [msutimer_bench, msutimer_bench_average, msutimer_bench_median]
  · cases timer <;> cases cb <;>
      simp [msutimer_bench, msutimer_bench_average, msutimer_bench_median]

/-- Witness for C6 at a concrete invalid input (`NULL` timer). -/
theorem reducers_reject_invalid_inputs_witness :
    ((msutimer_bench cdemo st0 none 1 (some fun _ => true) (some 4)).ret = 0 ∧
     (msutimer_bench cdemo st0 none 1 (some fun _ => true) (some 4)).st.errno = EDOM ∧
     (msutimer_bench cdemo st0 none 1 (some fun _ => true) (some 4)).calls = 0 ∧
     (msutimer_bench cdemo st0 none 1 (some fun _ => true) (some 4)).timer = none ∧
     (msutimer_bench cdemo st0 none 1 (some fun _ => true) (some 4)).erepeat = some 4 ∧
     (msutimer_bench cdemo st0 none 1 (some fun _ => true) (some 4)).st.idx = st0.idx) ∧
    ((msutimer_bench_average cdemo st0 none 1 (some fun _ => true) (some 4)).ret = some 0 ∧
     (msutimer_bench_average cdemo st0 none 1 (some fun _ => true) (some 4)).st.errno = EDOM ∧
     (msutimer_bench_average cdemo st0 none 1 (some fun _ => true) (some 4)).calls = 0 ∧
     (msutimer_bench_average cdemo st0 none 1 (some fun _ => true) (some 4)).timer = none ∧
     (msutimer_bench_average cdemo st0 none 1 (some fun _ => true) (some 4)).erepeat = some 4 ∧
     (msutimer_bench_average cdemo st0 none 1 (some fun _ => true) (some 4)).st.idx = st0.idx) ∧
    ((msutimer_bench_median cdemo st0 none 1 (some fun _ => true) (some 4)).ret = some 0 ∧
     (msutimer_bench_median cdemo st0 none 1 (some fun _ => true) (some 4)).st.errno = EDOM ∧
     (msutimer_bench_median cdemo st0 none 1 (some fun _ => true) (some 4)).calls = 0 ∧
     (msutimer_bench_median cdemo st0 none 1 (some fun _ => true) (some 4)).timer = none ∧
     (msutimer_bench_median cdemo st0 none 1 (some fun _ => true) (some 4)).erepeat = some 4 ∧
     (msutimer_bench_median cdemo st0 none 1 (some fun _ => true) (some 4)).st.idx = st0.idx) :=
  reducers_reject_invalid_inputs cdemo st0 none 1 (some fun _ => true) (some 4) (Or.inl rfl)

/-- C7: on a non-`NULL` timer, `msutimer_gettime` consumes exactly one clock
sample, sets the stored delta to the new sample's absolute microseconds minus
the previously stored sample's absolute microseconds, replaces the stored
sample with the new one, and returns the new sample's absolute microsecond
value. -/
theorem gettime_updates_delta_and_sample (c : Clock) (tm : Timer) (st : St) :
    (msutimer_gettime c (some tm) st).ret = msuttime_to_usecs_ (c.sample st.idx) tm.freq ∧
    (msutimer_gettime c (some tm) st).timer =
      some { freq := tm.freq, t1 := c.sample st.idx,
             diffusecs := msuttime_to_usecs_ (c.sample st.idx) tm.freq
                            - msuttime_to_usecs_ tm.t1 tm.freq } ∧
    (msutimer_gettime c (some tm) st).st = { idx := st.idx + 1, errno := 0 } := by
  refine ⟨rfl, ?_, rfl⟩
  simp [msutimer_gettime, get_msuttime_, update_diffusecs_, msuttime_to_usecs_]

/-- C8: on a non-`NULL` timer, if some later clock sample is strictly larger
(in absolute microseconds) than the first sample of the spin, then the
busy-spin of `msutimer_accuracy_usecs` terminates (for sufficient fuel) and
the function returns a strictly positive value. -/
theorem accuracy_spin_terminates_positive (c : Clock) (st : St) (tm : Timer)
    (h : ∃ m, usecsAt c st.idx < usecsAt c (st.idx + 1 + m)) :
    ∃ fuel v, (msutimer_accuracy_usecs c st (some tm) fuel).ret = some v ∧ 0 < v := by
  obtain ⟨m, hm⟩ := h
  have hbody : msutimer_accuracy_usecs c st (some tm) (m + 1)
      = accLoop c (usecsAt c st.idx)
          (msutimer_gettime c (some tm) { st with errno := 0 }).timer
          (msutimer_gettime c (some tm) { st with errno := 0 }).st (m + 1) := rfl
  obtain ⟨tm2, htm⟩ :
      ∃ tm2, (msutimer_gettime c (some tm) { st with errno := 0 }).timer = some tm2 := ⟨_, rfl⟩
  have hst : (msutimer_gettime c (some tm) { st with errno := 0 }).st
      = { idx := st.idx + 1, errno := 0 } := rfl
  obtain ⟨j, hret, hj⟩ := accLoop_finds c (usecsAt c st.idx) (m + 1) tm2
    { idx := st.idx + 1, errno := 0 }
    ⟨m, Nat.lt_succ_self m, by simpa [Nat.add_assoc] using hm⟩
  refine ⟨m + 1, usecsAt c j - usecsAt c st.idx, ?_, sub_pos.mpr hj⟩
  rw [hbody, htm, hst, hret]

/-- Witness for C8 at a concrete strictly increasing clock. -/
theorem accuracy_spin_terminates_positive_witness :
    (∃ m, usecsAt cdemo st0.idx < usecsAt cdemo (st0.idx + 1 + m)) ∧
    ∃ fuel v, (msutimer_accuracy_usecs cdemo st0 (some tm0) fuel).ret = some v ∧ 0 < v :=
  ⟨⟨0, by norm_num [usecsAt, msuttime_to_usecs_, cdemo, st0]⟩,
   accuracy_spin_terminates_positive cdemo st0 tm0
     ⟨0, by norm_num [usecsAt, msuttime_to_usecs_, cdemo, st0]⟩⟩

/-- C9: on a non-`NULL` timer, `msutimer_gettime` discards the success flag of
the underlying clock read: its entire result is independent of the clock's
success stream, and it leaves `errno = 0` for every clock behaviour, so its
only error path is the `NULL` timer handle. -/
theorem gettime_ignores_clock_read_failure (sample : ℕ → MSUTimerTime) (okA okB : ℕ → Bool)
    (tm : Timer) (st : St) :
    msutimer_gettime ⟨sample, okA⟩ (some tm) st = msutimer_gettime ⟨sample, okB⟩ (some tm) st ∧
    (msutimer_gettime ⟨sample, okA⟩ (some tm) st).st.errno = 0 :=
  ⟨rfl, rfl⟩

/-- C10: after a fully successful run, `msutimer_bench` leaves `0` (written
before the loop) in a non-`NULL` `erepeat` slot, while `msutimer_bench_average`
and `msutimer_bench_median` never write to the slot, leaving the caller's
value unchanged. -/
theorem erepeat_frame_on_success (c : Clock) (st : St) (tm : Timer) (cb : ℕ → Bool)
    (h : ∀ i, cb i = true) (n : ℕ) (hn : 0 < n) (v : ℕ) (er : Option ℕ) :
    (msutimer_bench c st (some tm) n (some cb) (some v)).erepeat = some 0 ∧
    (msutimer_bench_average c st (some tm) n (some cb) er).erepeat = er ∧
    (msutimer_bench_median c st (some tm) n (some cb) er).erepeat = er := by
  have hne : n ≠ 0 := Nat.pos_iff_ne_zero.mp hn
  refine ⟨?_, ?_, ?_⟩ <;>
    simp [msutimer_bench, msutimer_bench_average, msutimer_bench_median, hne,
      benchLoop_erepeat_of_true cb h, avgLoop_erepeat_of_true c cb h,
      medLoop_erepeat_of_true c cb h]

/-- Witness for C10 at a concrete clock, timer, callback and slot contents. -/
theorem erepeat_frame_on_success_witness :
    (msutimer_bench cdemo st0 (some tm0) 2 (some fun _ => true) (some 5)).erepeat = some 0 ∧
    (msutimer_bench_average cdemo st0 (some tm0) 2 (some fun _ => true) (some 9)).erepeat
      = some 9 ∧
    (msutimer_bench_median cdemo st0 (some tm0) 2 (some fun _ => true) (some 9)).erepeat
      = some 9 :=
  erepeat_frame_on_success cdemo st0 tm0 (fun _ => true) (fun _ => rfl) 2 (by norm_num) 5 (some 9)

end MSUT
